import Mathlib

/-!
# Verification of the Smart-Grid dynamic load balancer core

Shallow embedding of the load-balancing core of the repository:

* `SubstationState` with `start_charging` / `stop_charging`
  (src/substation_service/main.py),
* `LoadBalancer` with `add_substation`, `remove_substation`,
  `poll_substation_metrics` and `get_least_loaded_substation`
  (src/load_balancer/main.py),
* `ChargeRequestService.stop_charging_session`
  (src/charge_request_service/main.py).

Python dicts are modelled as insertion-ordered association lists with the
exact semantics of `d[k] = v` (replace in place, else append), `del d[k]`
(remove the unique occurrence) and `k in d`.  Python floats are modelled
as rationals `ℚ`; network results are passed in explicitly as values of
small inductive types so that every fallible call site is a pure function
of its observed outcome.
-/

namespace SmartGrid

/-- Lookup in a Python dict modelled as an association list:
returns the value at the first (in a dict: the only) matching key. -/
def dictGet {α β : Type} [DecidableEq α] (k : α) : List (α × β) → Option β
  | [] => none
  | (k', v) :: rest => if k' = k then some v else dictGet k rest

/-- Python `d[k] = v`: replace the value in place if the key is present,
otherwise append the new binding at the end (dicts are insertion-ordered). -/
def dictInsert {α β : Type} [DecidableEq α] (k : α) (v : β) :
    List (α × β) → List (α × β)
  | [] => [(k, v)]
  | (k', v') :: rest =>
      if k' = k then (k, v) :: rest else (k', v') :: dictInsert k v rest

/-- Python `del d[k]`: drop the first (in a dict: the only) binding for `k`;
a no-op when the key is absent. -/
def dictRemove {α β : Type} [DecidableEq α] (k : α) :
    List (α × β) → List (α × β)
  | [] => []
  | (k', v') :: rest =>
      if k' = k then rest else (k', v') :: dictRemove k rest

/-- Python `list.remove(x)`: drop the first occurrence. -/
def listRemoveFirst (x : String) : List String → List String
  | [] => []
  | y :: ys => if y = x then ys else y :: listRemoveFirst x ys

/-! ## Substation service (src/substation_service/main.py) -/

/-- One charging session as stored in `SubstationState.charging_sessions`.
The constant `status: 'charging'` field of the source dict is omitted
(it is never read and never changes). -/
structure Session where
  ev_id : String
  requested_kw : ℚ
  start_time : ℚ
deriving DecidableEq, Repr

/-- The session id `f"{substation_id}_{ev_id}_{int(time.time())}"`.
Since the substation id and the timestamp render as integers with no
underscore, two such strings are equal iff the three components are
equal, so the id is modelled as the triple itself. -/
structure SessionId where
  substation_id : ℤ
  ev_id : String
  timestamp : ℤ
deriving DecidableEq, Repr

/-- The mutable state of `SubstationState` (the Prometheus gauges mirror
`current_load` / `active_chargers` and are not modelled separately). -/
structure SubstationState where
  substation_id : ℤ
  max_capacity : ℚ
  current_load : ℚ
  active_chargers : ℤ
  charging_sessions : List (SessionId × Session)
deriving DecidableEq, Repr

/-- `SubstationState.__init__`: zero load, zero chargers, no sessions. -/
def SubstationState.init (id : ℤ) (max_capacity : ℚ) : SubstationState :=
  { substation_id := id
    max_capacity := max_capacity
    current_load := 0
    active_chargers := 0
    charging_sessions := [] }

/-- `SubstationState.start_charging(ev_id, requested_kw)`.  `t` is the value
of `time.time()` during the call; the generated session id uses its integer
part `int(time.time())`.  Accepts iff
`current_load + requested_kw <= max_capacity`; on accept stores the session
under the generated id, adds the kW to the load and increments the active
charger count; on reject returns `None` and leaves the state unchanged. -/
def start_charging (s : SubstationState) (ev_id : String) (requested_kw : ℚ)
    (t : ℚ) : Option SessionId × SubstationState :=
  if s.current_load + requested_kw ≤ s.max_capacity then
    let sid : SessionId := ⟨s.substation_id, ev_id, ⌊t⌋⟩
    (some sid,
      { s with
        charging_sessions :=
          dictInsert sid ⟨ev_id, requested_kw, t⟩ s.charging_sessions
        current_load := s.current_load + requested_kw
        active_chargers := s.active_chargers + 1 })
  else
    (none, s)

/-- `SubstationState.stop_charging(session_id)`: `False` when the id is
unknown (state untouched); otherwise removes the session, subtracts its
`requested_kw` from the load and decrements the charger count. -/
def stop_charging (s : SubstationState) (sid : SessionId) :
    Bool × SubstationState :=
  match dictGet sid s.charging_sessions with
  | some sess =>
      (true,
        { s with
          current_load := s.current_load - sess.requested_kw
          active_chargers := s.active_chargers - 1
          charging_sessions := dictRemove sid s.charging_sessions })
  | none => (false, s)

/-- Sum of the `requested_kw` of all stored sessions. -/
def sessionsLoad (s : SubstationState) : ℚ :=
  (s.charging_sessions.map (fun p => p.2.requested_kw)).sum

/-- One externally triggered substation operation: a `/charge` POST
(with the `time.time()` value at the call) or a `/charge/<id>` DELETE. -/
inductive SubOp where
  | start (ev_id : String) (requested_kw : ℚ) (t : ℚ)
  | stop (sid : SessionId)
deriving DecidableEq, Repr

/-- Apply one operation (dropping the returned value). -/
def applyOp (s : SubstationState) : SubOp → SubstationState
  | .start ev kw t => (start_charging s ev kw t).2
  | .stop sid => (stop_charging s sid).2

/-- Run a sequence of operations. -/
def runOps (s : SubstationState) : List SubOp → SubstationState
  | [] => s
  | op :: ops => runOps (applyOp s op) ops

/-! ## Load balancer (src/load_balancer/main.py) -/

/-- One cached telemetry entry of `LoadBalancer.substation_metrics`. -/
structure Metrics where
  current_load : ℚ
  total_capacity : ℚ
  load_percentage : ℚ
  last_updated : ℚ
deriving DecidableEq, Repr

/-- The registry (`substations` list) and the telemetry cache
(`substation_metrics` dict keyed by substation URL) of `LoadBalancer`. -/
structure LoadBalancer where
  substations : List String
  substation_metrics : List (String × Metrics)
deriving DecidableEq, Repr

/-- `LoadBalancer.__init__`: empty registry, empty cache. -/
def LoadBalancer.init : LoadBalancer :=
  { substations := [], substation_metrics := [] }

/-- `LoadBalancer.add_substation`: append iff not already present. -/
def add_substation (lb : LoadBalancer) (url : String) : Bool × LoadBalancer :=
  if url ∈ lb.substations then
    (false, lb)
  else
    (true, { lb with substations := lb.substations ++ [url] })

/-- `LoadBalancer.remove_substation`: when present, remove from the registry
list and delete any cached telemetry; otherwise report `False`. -/
def remove_substation (lb : LoadBalancer) (url : String) : Bool × LoadBalancer :=
  if url ∈ lb.substations then
    (true,
      { substations := listRemoveFirst url lb.substations
        substation_metrics := dictRemove url lb.substation_metrics })
  else
    (false, lb)

/-- One line of the polled `/metrics` response body, abstracted to how the
parsing loop classifies it: a line starting with `"current_load "` whose
second token parses as the float `v`, a line starting with
`"total_capacity "` likewise, or any other line. -/
inductive MetricsLine where
  | currentLoad (v : ℚ)
  | totalCapacity (v : ℚ)
  | other
deriving DecidableEq, Repr

/-- One iteration of the parsing loop of `poll_substation_metrics`:
a `current_load ` line overwrites the first accumulator component, a
`total_capacity ` line the second, any other line is skipped. -/
def parseStep (acc : ℚ × ℚ) : MetricsLine → ℚ × ℚ
  | .currentLoad v => (v, acc.2)
  | .totalCapacity v => (acc.1, v)
  | .other => acc

/-- The parsing loop of `poll_substation_metrics`: starting from the
defaults `current_load = 0`, `total_capacity = 1`, each matching line
overwrites the corresponding field (last occurrence wins). -/
def parseMetrics (lines : List MetricsLine) : ℚ × ℚ :=
  lines.foldl parseStep (0, 1)

/-- The observed outcome of the `requests.get` telemetry fetch: an HTTP
response with a status code and body lines, or a raised exception
(timeout, connection error, or a parse error in `float(...)`). -/
inductive FetchResult where
  | response (status : Nat) (lines : List MetricsLine)
  | exception
deriving DecidableEq, Repr

/-- `load_percentage = (current_load / total_capacity) * 100 if
total_capacity > 0 else 0`. -/
def computeLoadPercentage (cl tc : ℚ) : ℚ :=
  if 0 < tc then cl / tc * 100 else 0

/-- `LoadBalancer.poll_substation_metrics` for one endpoint, as a function
of the fetch outcome `res` and the current time `now`: on HTTP 200 it
parses the body and replaces the cached entry for `url`, returning `True`;
on any other status or an exception it returns `False` and changes
nothing (the Prometheus gauge update and logging are not modelled). -/
def poll_substation_metrics (lb : LoadBalancer) (url : String)
    (res : FetchResult) (now : ℚ) : Bool × LoadBalancer :=
  match res with
  | .response status lines =>
      if status = 200 then
        let cl := (parseMetrics lines).1
        let tc := (parseMetrics lines).2
        (true,
          { lb with
            substation_metrics :=
              dictInsert url ⟨cl, tc, computeLoadPercentage cl tc, now⟩
                lb.substation_metrics })
      else
        (false, lb)
  | .exception => (false, lb)

/-- Python `min(items, key=lambda x: x[1]['load_percentage'])` over the
remaining items, carrying the current best: the best is replaced only
when a later item is strictly smaller, so the first minimum wins. -/
def pyMinAux (best : String × Metrics) :
    List (String × Metrics) → String × Metrics
  | [] => best
  | y :: ys =>
      pyMinAux (if y.2.load_percentage < best.2.load_percentage then y else best) ys

/-- `LoadBalancer.get_least_loaded_substation`: `None` on an empty cache,
otherwise the key of the minimum-`load_percentage` item of the cache dict
(iterated in insertion order). -/
def get_least_loaded_substation (cache : List (String × Metrics)) :
    Option String :=
  match cache with
  | [] => none
  | x :: xs => some (pyMinAux x xs).1

/-! ## Charge request service (src/charge_request_service/main.py) -/

/-- One tracked session record of `ChargeRequestService.active_sessions`. -/
structure TrackedSession where
  ev_id : String
  requested_kw : ℚ
  substation_id : ℤ
  start_time : ℚ
  duration_minutes : Option ℚ
deriving DecidableEq, Repr

/-- The session tracker state: `active_sessions` keyed by session id
(the `active_sessions` Prometheus gauge mirrors its size). -/
structure ChargeRequestService where
  active_sessions : List (String × TrackedSession)
deriving DecidableEq, Repr

/-- The observed outcome of the forwarded `requests.delete` stop command. -/
inductive ForwardResult where
  | response (status : Nat)
  | exception
deriving DecidableEq, Repr

/-- The classified return value of `stop_charging_session`:
`{'error': 'Session not found'}`, `{'status': 'stopped', ...}`,
`{'error': f'Failed to stop session: {code}'}` or `{'error': str(e)}`. -/
inductive StopOutcome where
  | notFound
  | stopped (session_id : String)
  | failedStop (status : Nat)
  | transportError
deriving DecidableEq, Repr

/-- `ChargeRequestService.stop_charging_session` as a function of the
forward outcome `fw`: unknown ids fail fast without forwarding; a 200
response removes the tracked record; any other status or an exception
leaves it intact. -/
def stop_charging_session (svc : ChargeRequestService) (session_id : String)
    (fw : ForwardResult) : StopOutcome × ChargeRequestService :=
  match dictGet session_id svc.active_sessions with
  | none => (.notFound, svc)
  | some _ =>
      match fw with
      | .response c =>
          if c = 200 then
            (.stopped session_id,
              { active_sessions := dictRemove session_id svc.active_sessions })
          else
            (.failedStop c, svc)
      | .exception => (.transportError, svc)

/-! ## Well-behaved substation traces -/

/-- A start operation is benign at state `s` when its requested kW is
nonnegative and, if it is going to be accepted, the session id it
generates is not already in use (the ids the source generates from
`ev_id` and `int(time.time())` are not guaranteed fresh). -/
def opOk (s : SubstationState) : SubOp → Bool
  | .start ev kw t =>
      decide (0 ≤ kw) &&
        (!(decide (s.current_load + kw ≤ s.max_capacity)) ||
          (dictGet (⟨s.substation_id, ev, ⌊t⌋⟩ : SessionId)
              s.charging_sessions).isNone)
  | .stop _ => true

/-- Every operation of the sequence is benign at the state it runs in. -/
def opsOk (s : SubstationState) : List SubOp → Bool
  | [] => true
  | op :: ops => opOk s op && opsOk (applyOp s op) ops

/-- The invariant of the substation capacity state machine: the load never
exceeds the capacity, the load is the sum of the stored sessions' kW, and
every stored session's kW is nonnegative. -/
def GoodState (s : SubstationState) : Prop :=
  s.current_load ≤ s.max_capacity ∧
  s.current_load = sessionsLoad s ∧
  ∀ p ∈ s.charging_sessions, 0 ≤ p.2.requested_kw

/-! ## Concrete scenario states -/

/-- Registry `["A", "B"]` after one successful poll, of substation `"A"`
at 30 of 100 kW. -/
def scenarioOnePoll : LoadBalancer :=
  (poll_substation_metrics
    (add_substation (add_substation LoadBalancer.init "A").2 "B").2
    "A" (.response 200 [.currentLoad 30, .totalCapacity 100]) 0).2

/-- Registry `["A", "B"]` with both polled: `"A"` at 20 %, `"B"` at 80 %. -/
def scenarioTwoSubs : LoadBalancer :=
  (poll_substation_metrics
    (poll_substation_metrics
      (add_substation (add_substation LoadBalancer.init "A").2 "B").2
      "A" (.response 200 [.currentLoad 20, .totalCapacity 100]) 1).2
    "B" (.response 200 [.currentLoad 80, .totalCapacity 100]) 2).2

/-- `scenarioTwoSubs` after the next polling cycle reports `"A"` at 90 %
and `"B"` at 10 %. -/
def scenarioTwoSubsCrossed : LoadBalancer :=
  (poll_substation_metrics
    (poll_substation_metrics scenarioTwoSubs
      "A" (.response 200 [.currentLoad 90, .totalCapacity 100]) 3).2
    "B" (.response 200 [.currentLoad 10, .totalCapacity 100]) 4).2

/-- Registry `["A", "B"]` where the first poll of `"A"` failed, `"B"` then
reported 50 %, and a later poll of `"A"` also reported 50 %: the cache
insertion order `["B", "A"]` is the reverse of the registry order. -/
def scenarioTieCache : LoadBalancer :=
  (poll_substation_metrics
    (poll_substation_metrics
      (poll_substation_metrics
        (add_substation (add_substation LoadBalancer.init "A").2 "B").2
        "A" .exception 1).2
      "B" (.response 200 [.currentLoad 50, .totalCapacity 100]) 2).2
    "A" (.response 200 [.currentLoad 50, .totalCapacity 100]) 3).2

/-! ## Association-list lemmas -/

theorem dictGet_dictInsert {α β : Type} [DecidableEq α] (k : α) (v : β)
    (d : List (α × β)) : dictGet k (dictInsert k v d) = some v := by
  induction d with
  | nil => simp [dictInsert, dictGet]
  | cons hd tl ih =>
      obtain ⟨k', v'⟩ := hd
      by_cases h : k' = k
      · simp [dictInsert, dictGet, h]
      · simp [dictInsert, dictGet, h, ih]

theorem dictInsert_of_get_none {α β : Type} [DecidableEq α] (k : α) (v : β)
    (d : List (α × β)) (h : dictGet k d = none) :
    dictInsert k v d = d ++ [(k, v)] := by
  induction d with
  | nil => simp [dictInsert]
  | cons hd tl ih =>
      obtain ⟨k', v'⟩ := hd
      by_cases hk : k' = k
      · simp [dictGet, hk] at h
      · simp [dictGet, hk] at h
        simp [dictInsert, hk, ih h]

theorem mem_of_dictGet {α β : Type} [DecidableEq α] {k : α} {v : β}
    {d : List (α × β)} (h : dictGet k d = some v) : (k, v) ∈ d := by
  induction d with
  | nil => simp [dictGet] at h
  | cons hd tl ih =>
      obtain ⟨k', v'⟩ := hd
      by_cases hk : k' = k
      · subst hk
        simp [dictGet] at h
        simp [h]
      · simp [dictGet, hk] at h
        exact List.mem_cons_of_mem _ (ih h)

theorem mem_of_mem_dictRemove {α β : Type} [DecidableEq α] {k : α}
    {p : α × β} {d : List (α × β)} (h : p ∈ dictRemove k d) : p ∈ d := by
  induction d with
  | nil => simp [dictRemove] at h
  | cons hd tl ih =>
      obtain ⟨k', v'⟩ := hd
      by_cases hk : k' = k
      · simp [dictRemove, hk] at h
        exact List.mem_cons_of_mem _ h
      · simp [dictRemove, hk] at h
        rcases h with h | h
        · simp [h]
        · exact List.mem_cons_of_mem _ (ih h)

theorem dictRemove_map_sum {k : SessionId} {v : Session}
    {d : List (SessionId × Session)} (h : dictGet k d = some v) :
    ((dictRemove k d).map (fun p => p.2.requested_kw)).sum
      = (d.map (fun p => p.2.requested_kw)).sum - v.requested_kw := by
  induction d with
  | nil => simp [dictGet] at h
  | cons hd tl ih =>
      obtain ⟨k', v'⟩ := hd
      by_cases hk : k' = k
      · simp [dictGet, hk] at h
        subst h
        simp [dictRemove, hk]
      · simp [dictGet, hk] at h
        simp [dictRemove, hk, ih h]
        ring

theorem dictGet_eq_none_of_not_mem_keys {α β : Type} [DecidableEq α] (k : α)
    {d : List (α × β)} (h : k ∉ d.map Prod.fst) : dictGet k d = none := by
  induction d with
  | nil => simp [dictGet]
  | cons hd tl ih =>
      obtain ⟨k', v'⟩ := hd
      rw [List.map_cons, List.mem_cons] at h
      push_neg at h
      simp only [dictGet]
      rw [if_neg fun hk => h.1 hk.symm]
      exact ih h.2

theorem dictGet_dictRemove_of_nodup {α β : Type} [DecidableEq α] (k : α)
    {d : List (α × β)} (h : (d.map Prod.fst).Nodup) :
    dictGet k (dictRemove k d) = none := by
  induction d with
  | nil => simp [dictRemove, dictGet]
  | cons hd tl ih =>
      obtain ⟨k', v'⟩ := hd
      rw [List.map_cons, List.nodup_cons] at h
      by_cases hk : k' = k
      · subst hk
        simp only [dictRemove, if_pos rfl]
        exact dictGet_eq_none_of_not_mem_keys k' h.1
      · simp only [dictRemove, if_neg hk, dictGet, if_neg hk]
        exact ih h.2

theorem not_mem_listRemoveFirst_of_nodup {x : String} {l : List String}
    (h : l.Nodup) : x ∉ listRemoveFirst x l := by
  induction l with
  | nil => simp [listRemoveFirst]
  | cons y ys ih =>
      simp at h
      by_cases hy : y = x
      · subst hy
        simpa [listRemoveFirst] using h.1
      · simp [listRemoveFirst, hy]
        exact ⟨fun hx => hy hx.symm, ih h.2⟩

/-! ## Minimum-selection lemmas -/

theorem pyMinAux_mem (b : String × Metrics) (l : List (String × Metrics)) :
    pyMinAux b l ∈ b :: l := by
  induction l generalizing b with
  | nil => simp [pyMinAux]
  | cons y ys ih =>
      simp only [pyMinAux]
      rcases List.mem_cons.mp (ih (if y.2.load_percentage < b.2.load_percentage then y else b)) with h | h
      · rw [h]
        split
        · simp
        · simp
      · simp [h]

theorem pyMinAux_le_start (l : List (String × Metrics)) :
    ∀ b : String × Metrics,
      (pyMinAux b l).2.load_percentage ≤ b.2.load_percentage := by
  induction l with
  | nil =>
      intro b
      simp [pyMinAux]
  | cons z zs ih =>
      intro b
      by_cases hz : z.2.load_percentage < b.2.load_percentage
      · simp only [pyMinAux, if_pos hz]
        exact le_trans (ih z) (le_of_lt hz)
      · simp only [pyMinAux, if_neg hz]
        exact ih b

theorem pyMinAux_le_mem (l : List (String × Metrics)) :
    ∀ b : String × Metrics, ∀ y ∈ l,
      (pyMinAux b l).2.load_percentage ≤ y.2.load_percentage := by
  induction l with
  | nil =>
      intro b y hy
      simp at hy
  | cons z zs ih =>
      intro b y hy
      rcases List.mem_cons.mp hy with h | h
      · subst h
        by_cases hz : y.2.load_percentage < b.2.load_percentage
        · simp only [pyMinAux, if_pos hz]
          exact pyMinAux_le_start zs y
        · simp only [pyMinAux, if_neg hz]
          exact le_trans (pyMinAux_le_start zs b) (not_lt.mp hz)
      · by_cases hz : z.2.load_percentage < b.2.load_percentage
        · simp only [pyMinAux, if_pos hz]
          exact ih z y h
        · simp only [pyMinAux, if_neg hz]
          exact ih b y h

theorem pyMinAux_le (b : String × Metrics) (l : List (String × Metrics)) :
    ∀ y ∈ b :: l, (pyMinAux b l).2.load_percentage ≤ y.2.load_percentage := by
  intro y hy
  rcases List.mem_cons.mp hy with h | h
  · subst h
    exact pyMinAux_le_start l y
  · exact pyMinAux_le_mem l b y h

theorem pyMinAux_of_le (b : String × Metrics) (l : List (String × Metrics))
    (h : ∀ y ∈ l, b.2.load_percentage ≤ y.2.load_percentage) :
    pyMinAux b l = b := by
  induction l with
  | nil => simp [pyMinAux]
  | cons y ys ih =>
      have hy : b.2.load_percentage ≤ y.2.load_percentage :=
        h y (List.mem_cons_self _ _)
      have hif : ¬ y.2.load_percentage < b.2.load_percentage := not_lt.mpr hy
      simp only [pyMinAux, if_neg hif]
      exact ih fun z hz => h z (List.mem_cons_of_mem _ hz)

theorem pyMinAux_append (l₁ l₂ : List (String × Metrics)) :
    ∀ b : String × Metrics,
      pyMinAux b (l₁ ++ l₂) = pyMinAux (pyMinAux b l₁) l₂ := by
  induction l₁ with
  | nil =>
      intro b
      simp [pyMinAux]
  | cons y ys ih =>
      intro b
      simp only [List.cons_append, pyMinAux]
      exact ih _

/-! ## Invariant preservation -/

theorem goodState_applyOp {s : SubstationState} {op : SubOp}
    (hg : GoodState s) (hok : opOk s op = true) :
    GoodState (applyOp s op) := by
  obtain ⟨hle, hsum, hpos⟩ := hg
  cases op with
  | start ev kw t =>
      simp only [opOk, Bool.and_eq_true, Bool.or_eq_true, Bool.not_eq_true',
        decide_eq_true_eq, decide_eq_false_iff_not,
        Option.isNone_iff_eq_none] at hok
      obtain ⟨hkw, hcase⟩ := hok
      simp only [applyOp, start_charging]
      by_cases hacc : s.current_load + kw ≤ s.max_capacity
      · rw [if_pos hacc]
        rcases hcase with hcase | hfresh
        · exact absurd hacc hcase
        · refine ⟨hacc, ?_, ?_⟩
          · show s.current_load + kw = sessionsLoad _
            simp only [sessionsLoad, dictInsert_of_get_none _ _ _ hfresh,
              List.map_append, List.sum_append, List.map_cons, List.map_nil,
              List.sum_cons, List.sum_nil]
            rw [hsum]
            simp [sessionsLoad]
          · intro p hp
            simp only [dictInsert_of_get_none _ _ _ hfresh, List.mem_append,
              List.mem_singleton] at hp
            rcases hp with hp | hp
            · exact hpos p hp
            · subst hp
              exact hkw
      · rw [if_neg hacc]
        exact ⟨hle, hsum, hpos⟩
  | stop sid =>
      simp only [applyOp, stop_charging]
      cases hget : dictGet sid s.charging_sessions with
      | none => exact ⟨hle, hsum, hpos⟩
      | some sess =>
          have hmem := mem_of_dictGet hget
          have hk : 0 ≤ sess.requested_kw := hpos _ hmem
          have hrem := dictRemove_map_sum hget
          simp only [sessionsLoad] at hsum
          refine ⟨?_, ?_, ?_⟩
          · show s.current_load - sess.requested_kw ≤ s.max_capacity
            linarith
          · show s.current_load - sess.requested_kw
              = ((dictRemove sid s.charging_sessions).map
                  (fun p => p.2.requested_kw)).sum
            rw [hrem, ← hsum]
          · intro p hp
            exact hpos p (mem_of_mem_dictRemove hp)

theorem goodState_runOps (ops : List SubOp) :
    ∀ s : SubstationState, GoodState s → opsOk s ops = true →
      GoodState (runOps s ops) := by
  induction ops with
  | nil =>
      intro s hg _
      simpa [runOps] using hg
  | cons op ops ih =>
      intro s hg hok
      simp only [opsOk, Bool.and_eq_true] at hok
      exact ih _ (goodState_applyOp hg hok.1) hok.2

theorem add_substation_of_mem {lb : LoadBalancer} {url : String}
    (h : url ∈ lb.substations) : add_substation lb url = (false, lb) := by
  simp [add_substation, h]

theorem add_substation_of_not_mem {lb : LoadBalancer} {url : String}
    (h : url ∉ lb.substations) :
    add_substation lb url
      = (true, { lb with substations := lb.substations ++ [url] }) := by
  simp [add_substation, h]

theorem remove_substation_of_mem {lb : LoadBalancer} {url : String}
    (h : url ∈ lb.substations) :
    remove_substation lb url
      = (true,
          { substations := listRemoveFirst url lb.substations
            substation_metrics := dictRemove url lb.substation_metrics }) := by
  simp [remove_substation, h]

theorem remove_substation_of_not_mem {lb : LoadBalancer} {url : String}
    (h : url ∉ lb.substations) : remove_substation lb url = (false, lb) := by
  simp [remove_substation, h]

theorem dictInsert_ne_nil {α β : Type} [DecidableEq α] (k : α) (v : β)
    (d : List (α × β)) : dictInsert k v d ≠ [] := by
  cases d with
  | nil => simp [dictInsert]
  | cons hd tl =>
      obtain ⟨k', v'⟩ := hd
      by_cases h : k' = k <;> simp [dictInsert, h]

theorem foldl_parseStep_other (lines : List MetricsLine) :
    (∀ l ∈ lines, l = MetricsLine.other) →
      ∀ acc : ℚ × ℚ, lines.foldl parseStep acc = acc := by
  induction lines with
  | nil =>
      intro _ _
      rfl
  | cons x xs ih =>
      intro h acc
      have hx : x = MetricsLine.other := h x (List.mem_cons_self _ _)
      subst hx
      simp only [List.foldl_cons, parseStep]
      exact ih (fun l hl => h l (List.mem_cons_of_mem _ hl)) acc

/-! ## Claim theorems -/

/-- C3: `start_charging` accepts (returns a session id) iff
`current_load + requested_kw ≤ max_capacity`; on accept it returns the
generated session id, adds the kW to the load, stores the session under
that id and increments the active charger count; on reject it returns
`none` and leaves the state unchanged. -/
theorem start_charging_spec (s : SubstationState) (ev : String) (kw t : ℚ) :
    ((start_charging s ev kw t).1.isSome ↔
      s.current_load + kw ≤ s.max_capacity) ∧
    (s.current_load + kw ≤ s.max_capacity →
      (start_charging s ev kw t).1 = some ⟨s.substation_id, ev, ⌊t⌋⟩ ∧
      (start_charging s ev kw t).2.current_load = s.current_load + kw ∧
      (start_charging s ev kw t).2.charging_sessions
        = dictInsert ⟨s.substation_id, ev, ⌊t⌋⟩ ⟨ev, kw, t⟩
            s.charging_sessions ∧
      dictGet (⟨s.substation_id, ev, ⌊t⌋⟩ : SessionId)
          (start_charging s ev kw t).2.charging_sessions = some ⟨ev, kw, t⟩ ∧
      (start_charging s ev kw t).2.active_chargers = s.active_chargers + 1) ∧
    (¬ s.current_load + kw ≤ s.max_capacity →
      (start_charging s ev kw t).1 = none ∧
      (start_charging s ev kw t).2 = s) := by
  by_cases hacc : s.current_load + kw ≤ s.max_capacity
  · refine ⟨?_, fun _ => ?_, fun h => absurd hacc h⟩
    · simp [start_charging, hacc]
    · simp [start_charging, hacc, dictGet_dictInsert]
  · refine ⟨?_, fun h => absurd h hacc, fun _ => ?_⟩
    · simp [start_charging, hacc]
    · simp [start_charging, hacc]

/-- Witness for C3: a concrete accepted call on a fresh substation. -/
theorem start_charging_spec_witness :
    (start_charging (SubstationState.init 1 100) "EV" 10 0).1
        = some ⟨1, "EV", 0⟩ ∧
    (start_charging (SubstationState.init 1 100) "EV" 10 0).2.current_load
        = 10 := by
  have h := start_charging_spec (SubstationState.init 1 100) "EV" 10 0
  have hacc : (SubstationState.init 1 100).current_load + 10
      ≤ (SubstationState.init 1 100).max_capacity := by
    norm_num [SubstationState.init]
  obtain ⟨-, h2, -⟩ := h
  obtain ⟨ha, hb, -⟩ := h2 hacc
  constructor
  · rw [ha]
    norm_num [SubstationState.init]
  · rw [hb]
    norm_num [SubstationState.init]

/-- C4: `stop_charging` on an unknown session id returns `false` and leaves
the whole state unchanged; on a known id it returns `true`, removes the
session, subtracts its kW from the load and decrements the charger count
(on a duplicate-free session table the id is gone afterwards). -/
theorem stop_charging_spec (s : SubstationState) (sid : SessionId) :
    (dictGet sid s.charging_sessions = none →
      stop_charging s sid = (false, s)) ∧
    (∀ sess : Session, dictGet sid s.charging_sessions = some sess →
      (stop_charging s sid).1 = true ∧
      (stop_charging s sid).2.current_load
        = s.current_load - sess.requested_kw ∧
      (stop_charging s sid).2.active_chargers = s.active_chargers - 1 ∧
      (stop_charging s sid).2.charging_sessions
        = dictRemove sid s.charging_sessions ∧
      ((s.charging_sessions.map Prod.fst).Nodup →
        dictGet sid (stop_charging s sid).2.charging_sessions = none)) := by
  constructor
  · intro h
    simp only [stop_charging, h]
  · intro sess h
    refine ⟨?_, ?_, ?_, ?_, fun hnd => ?_⟩
    · simp [stop_charging, h]
    · simp [stop_charging, h]
    · simp [stop_charging, h]
    · simp [stop_charging, h]
    · have hs : (stop_charging s sid).2.charging_sessions
          = dictRemove sid s.charging_sessions := by
        simp [stop_charging, h]
      rw [hs]
      exact dictGet_dictRemove_of_nodup sid hnd

/-- Witness for C4: stopping the only session of a concrete substation. -/
theorem stop_charging_spec_witness :
    (stop_charging ⟨1, 100, 10, 1, [(⟨1, "EV", 0⟩, ⟨"EV", 10, 0⟩)]⟩
        ⟨1, "EV", 0⟩).1 = true ∧
    (stop_charging ⟨1, 100, 10, 1, [(⟨1, "EV", 0⟩, ⟨"EV", 10, 0⟩)]⟩
        ⟨1, "EV", 0⟩).2.current_load = 10 - 10 := by
  have h := (stop_charging_spec
      ⟨1, 100, 10, 1, [(⟨1, "EV", 0⟩, ⟨"EV", 10, 0⟩)]⟩ ⟨1, "EV", 0⟩).2
    ⟨"EV", 10, 0⟩ (by simp [dictGet])
  exact ⟨h.1, h.2.1⟩

/-- C5: a poll step with an HTTP 200 response replaces the endpoint's
cached entry with `{current_load, total_capacity, load_percentage, now}`
where `load_percentage = current_load / total_capacity * 100` for positive
capacity and `0` for capacity `≤ 0`; any other status and any raised
exception return `False` and leave the cache and the registry untouched. -/
theorem poll_substation_metrics_spec (lb : LoadBalancer) (url : String)
    (status : Nat) (lines : List MetricsLine) (now : ℚ) :
    (status = 200 →
      poll_substation_metrics lb url (.response status lines) now
        = (true,
            { lb with
              substation_metrics :=
                dictInsert url
                  ⟨(parseMetrics lines).1, (parseMetrics lines).2,
                    computeLoadPercentage (parseMetrics lines).1
                      (parseMetrics lines).2, now⟩
                  lb.substation_metrics })) ∧
    (status ≠ 200 →
      poll_substation_metrics lb url (.response status lines) now
        = (false, lb)) ∧
    (poll_substation_metrics lb url .exception now = (false, lb)) ∧
    (∀ cl tc : ℚ, 0 < tc → computeLoadPercentage cl tc = cl / tc * 100) ∧
    (∀ cl tc : ℚ, tc ≤ 0 → computeLoadPercentage cl tc = 0) ∧
    ((poll_substation_metrics lb url (.response status lines) now).2.substations
        = lb.substations) := by
  refine ⟨?_, ?_, rfl, ?_, ?_, ?_⟩
  · intro h
    subst h
    simp [poll_substation_metrics]
  · intro h
    simp [poll_substation_metrics, h]
  · intro cl tc h
    simp [computeLoadPercentage, h]
  · intro cl tc h
    simp [computeLoadPercentage, not_lt.mpr h]
  · by_cases h : status = 200 <;> simp [poll_substation_metrics, h]

/-- Witness for C5: a concrete successful poll caching 30 of 100 kW. -/
theorem poll_substation_metrics_spec_witness :
    poll_substation_metrics LoadBalancer.init "A"
        (.response 200 [.currentLoad 30, .totalCapacity 100]) 0
      = (true,
          { substations := [],
            substation_metrics := [("A", ⟨30, 100, 30, 0⟩)] }) := by
  have h := (poll_substation_metrics_spec LoadBalancer.init "A" 200
    [.currentLoad 30, .totalCapacity 100] 0).1 rfl
  rw [h]
  norm_num [LoadBalancer.init, dictInsert, parseMetrics, parseStep,
    computeLoadPercentage]

/-- C8: the session tracker's stop: an untracked id yields a not-found
error with no state change; a forwarded stop answered 200 removes the
tracked record; a non-200 answer or a transport failure yields an error
and leaves the tracked record intact. -/
theorem stop_charging_session_spec (svc : ChargeRequestService)
    (sid : String) (fw : ForwardResult) :
    (dictGet sid svc.active_sessions = none →
      stop_charging_session svc sid fw = (.notFound, svc)) ∧
    (∀ v : TrackedSession, dictGet sid svc.active_sessions = some v →
      (stop_charging_session svc sid (.response 200)
          = (.stopped sid,
              { active_sessions := dictRemove sid svc.active_sessions })) ∧
      (∀ c : Nat, c ≠ 200 →
        stop_charging_session svc sid (.response c) = (.failedStop c, svc)) ∧
      (stop_charging_session svc sid .exception
          = (.transportError, svc))) := by
  constructor
  · intro h
    cases fw with
    | response c => simp [stop_charging_session, h]
    | exception => simp [stop_charging_session, h]
  · intro v h
    refine ⟨?_, ?_, ?_⟩
    · simp [stop_charging_session, h]
    · intro c hc
      simp [stop_charging_session, h, hc]
    · simp [stop_charging_session, h]

/-- Witness for C8: a tracked session whose forwarded stop returns 200. -/
theorem stop_charging_session_spec_witness :
    stop_charging_session ⟨[("s1", ⟨"EV", 10, 7, 0, none⟩)]⟩ "s1"
        (.response 200)
      = (.stopped "s1", ⟨[]⟩) := by
  have h := (stop_charging_session_spec ⟨[("s1", ⟨"EV", 10, 7, 0, none⟩)]⟩
    "s1" (.response 200)).2 ⟨"EV", 10, 7, 0, none⟩ (by simp [dictGet])
  rw [h.1]
  simp [dictRemove]

/-- C1: `get_least_loaded_substation` returns `none` on an empty cache;
on a non-empty cache it returns an endpoint whose cached entry attains
the minimum `load_percentage`.  In particular: after exactly one
successful poll (for `"A"`) it returns `"A"`; with `"A"` cached at 20 %
and `"B"` at 80 % it returns `"A"`, and after the percentages cross to
90 % / 10 % on the next polls it switches to `"B"`. -/
theorem select_least_loaded_spec (cache : List (String × Metrics)) :
    (cache = [] → get_least_loaded_substation cache = none) ∧
    (cache ≠ [] → ∃ p : String × Metrics, p ∈ cache ∧
      get_least_loaded_substation cache = some p.1 ∧
      ∀ q ∈ cache, p.2.load_percentage ≤ q.2.load_percentage) ∧
    (get_least_loaded_substation scenarioOnePoll.substation_metrics
        = some "A") ∧
    (get_least_loaded_substation scenarioTwoSubs.substation_metrics
        = some "A") ∧
    (get_least_loaded_substation scenarioTwoSubsCrossed.substation_metrics
        = some "B") := by
  refine ⟨?_, ?_, ?_, ?_, ?_⟩
  · intro h
    subst h
    rfl
  · intro h
    match cache, h with
    | x :: xs, _ =>
        exact ⟨pyMinAux x xs, pyMinAux_mem x xs, rfl, pyMinAux_le x xs⟩
  · norm_num [scenarioOnePoll, LoadBalancer.init, add_substation,
      poll_substation_metrics, parseMetrics, parseStep,
      computeLoadPercentage, dictInsert, get_least_loaded_substation,
      pyMinAux]
  · norm_num [scenarioTwoSubs, LoadBalancer.init, add_substation,
      poll_substation_metrics, parseMetrics, parseStep,
      computeLoadPercentage, dictInsert, get_least_loaded_substation,
      pyMinAux]
    all_goals decide
  · norm_num [scenarioTwoSubsCrossed, scenarioTwoSubs, LoadBalancer.init,
      add_substation, poll_substation_metrics, parseMetrics, parseStep,
      computeLoadPercentage, dictInsert, get_least_loaded_substation,
      pyMinAux]
    all_goals decide

/-- Witness for C1: the empty cache yields `none`; the concrete two-poll
state at 20 % / 80 % yields `"A"`. -/
theorem select_least_loaded_spec_witness :
    get_least_loaded_substation [] = none ∧
    get_least_loaded_substation scenarioTwoSubs.substation_metrics
      = some "A" := by
  have h := select_least_loaded_spec []
  exact ⟨h.1 rfl, h.2.2.2.1⟩

/-- C6 counterexample: in the reachable state `scenarioTieCache` the
registry snapshot is `["A", "B"]` and both endpoints are cached at
exactly 50 %, yet selection returns `"B"` — the entry first in cache
insertion order — and not `"A"`, the tied endpoint that is first in
registry snapshot iteration order. -/
theorem select_tie_registry_order_counterexample :
    scenarioTieCache.substations = ["A", "B"] ∧
    (dictGet "A" scenarioTieCache.substation_metrics).map
        Metrics.load_percentage = some 50 ∧
    (dictGet "B" scenarioTieCache.substation_metrics).map
        Metrics.load_percentage = some 50 ∧
    get_least_loaded_substation scenarioTieCache.substation_metrics
      = some "B" ∧
    "B" ≠ "A" := by
  refine ⟨?_, ?_, ?_, ?_, by decide⟩ <;>
    · norm_num [scenarioTieCache, LoadBalancer.init, add_substation,
        poll_substation_metrics, parseMetrics, parseStep,
        computeLoadPercentage, dictInsert, dictGet,
        get_least_loaded_substation, pyMinAux]
      all_goals decide

/-- C6 (amended): on a cache `l₁ ++ (e, m) :: l₂` in which `m` attains the
minimum `load_percentage` and every entry before `(e, m)` is strictly more
loaded — i.e. `e` is the first entry in cache insertion order among the
tied minima — selection deterministically returns `e`.  Cache insertion
order is the order of first successful poll, which can differ from the
registry snapshot order. -/
theorem select_tie_cache_order (l₁ l₂ : List (String × Metrics))
    (e : String) (m : Metrics)
    (h₁ : ∀ q ∈ l₁, m.load_percentage < q.2.load_percentage)
    (h₂ : ∀ q ∈ l₂, m.load_percentage ≤ q.2.load_percentage) :
    get_least_loaded_substation (l₁ ++ (e, m) :: l₂) = some e := by
  cases l₁ with
  | nil =>
      simp only [List.nil_append, get_least_loaded_substation]
      rw [pyMinAux_of_le _ _ h₂]
  | cons y ys =>
      simp only [List.cons_append, get_least_loaded_substation]
      rw [pyMinAux_append]
      have hlt : m.load_percentage
          < (pyMinAux y ys).2.load_percentage :=
        h₁ _ (pyMinAux_mem y ys)
      have hstep : pyMinAux (pyMinAux y ys) ((e, m) :: l₂) = (e, m) := by
        simp only [pyMinAux, if_pos hlt]
        exact pyMinAux_of_le _ _ h₂
      rw [hstep]

/-- Witness for C6: a cache with a 60 % entry followed by two tied 50 %
entries selects the first tied one. -/
theorem select_tie_cache_order_witness :
    get_least_loaded_substation
        [("C", ⟨60, 100, 60, 0⟩), ("A", ⟨50, 100, 50, 0⟩),
         ("B", ⟨50, 100, 50, 0⟩)] = some "A" := by
  have h := select_tie_cache_order [("C", ⟨60, 100, 60, 0⟩)]
    [("B", ⟨50, 100, 50, 0⟩)] "A" ⟨50, 100, 50, 0⟩
    (by
      intro q hq
      rw [List.mem_singleton] at hq
      subst hq
      norm_num)
    (by
      intro q hq
      rw [List.mem_singleton] at hq
      subst hq
      norm_num)
  simpa using h

/-- C7: on a duplicate-free registry state, `add_substation` is a no-op
returning `false` when the endpoint is present and appends it returning
`true` when absent; `remove_substation` returns `false` and changes
nothing when absent, and when present returns `true`, removes the
endpoint and discards its cached telemetry; removing twice yields `true`
then `false`; re-adding after removal succeeds with no cached telemetry
left for the endpoint. -/
theorem registry_add_remove_spec (lb : LoadBalancer) (url : String)
    (hs : lb.substations.Nodup)
    (hm : (lb.substation_metrics.map Prod.fst).Nodup) :
    (url ∈ lb.substations → add_substation lb url = (false, lb)) ∧
    (url ∉ lb.substations →
      add_substation lb url
        = (true, { lb with substations := lb.substations ++ [url] })) ∧
    (url ∉ lb.substations → remove_substation lb url = (false, lb)) ∧
    (url ∈ lb.substations →
      (remove_substation lb url).1 = true ∧
      url ∉ (remove_substation lb url).2.substations ∧
      dictGet url (remove_substation lb url).2.substation_metrics = none) ∧
    (url ∈ lb.substations →
      (remove_substation (remove_substation lb url).2 url).1 = false) ∧
    (url ∈ lb.substations →
      (add_substation (remove_substation lb url).2 url).1 = true ∧
      dictGet url
          (add_substation (remove_substation lb url).2 url).2.substation_metrics
        = none) := by
  by_cases h : url ∈ lb.substations
  · have hrem := remove_substation_of_mem h
    have hns : url ∉ (remove_substation lb url).2.substations := by
      rw [hrem]
      exact not_mem_listRemoveFirst_of_nodup hs
    have hget : dictGet url (remove_substation lb url).2.substation_metrics
        = none := by
      rw [hrem]
      exact dictGet_dictRemove_of_nodup url hm
    refine ⟨fun _ => add_substation_of_mem h, fun hn => absurd h hn,
      fun hn => absurd h hn, fun _ => ⟨?_, hns, hget⟩, fun _ => ?_,
      fun _ => ⟨?_, ?_⟩⟩
    · rw [hrem]
    · rw [remove_substation_of_not_mem hns]
    · rw [add_substation_of_not_mem hns]
    · rw [add_substation_of_not_mem hns]
      exact hget
  · exact ⟨fun hn => absurd hn h, fun _ => add_substation_of_not_mem h,
      fun _ => remove_substation_of_not_mem h, fun hn => absurd hn h,
      fun hn => absurd hn h, fun hn => absurd hn h⟩

/-- Witness for C7: remove twice on a concrete one-entry registry, then
re-add; the second removal fails and the re-added endpoint has no cached
telemetry. -/
theorem registry_add_remove_spec_witness :
    (remove_substation ⟨["A"], [("A", ⟨30, 100, 30, 0⟩)]⟩ "A").1 = true ∧
    (remove_substation
        (remove_substation ⟨["A"], [("A", ⟨30, 100, 30, 0⟩)]⟩ "A").2
        "A").1 = false ∧
    dictGet "A"
        (add_substation
          (remove_substation ⟨["A"], [("A", ⟨30, 100, 30, 0⟩)]⟩ "A").2
          "A").2.substation_metrics = none := by
  have h := registry_add_remove_spec ⟨["A"], [("A", ⟨30, 100, 30, 0⟩)]⟩ "A"
    (by simp) (by simp)
  exact ⟨(h.2.2.2.1 (by simp)).1, h.2.2.2.2.1 (by simp),
    (h.2.2.2.2.2 (by simp)).2⟩

/-- C9: an HTTP 200 body with no `current_load ` line and no
`total_capacity ` line parses to the defaults `(0, 1)` and is cached as
`{current_load := 0, total_capacity := 1, load_percentage := 0}`; the
endpoint is then eligible for selection and no selected entry can beat
its 0 % figure. -/
theorem unparseable_telemetry_spec (lb : LoadBalancer) (url : String)
    (lines : List MetricsLine) (now : ℚ)
    (h : ∀ l ∈ lines, l = MetricsLine.other) :
    parseMetrics lines = (0, 1) ∧
    (poll_substation_metrics lb url
        (.response 200 lines) now).2.substation_metrics
      = dictInsert url ⟨0, 1, 0, now⟩ lb.substation_metrics ∧
    dictGet url
        (poll_substation_metrics lb url
          (.response 200 lines) now).2.substation_metrics
      = some ⟨0, 1, 0, now⟩ ∧
    (∃ p : String × Metrics,
      p ∈ (poll_substation_metrics lb url
          (.response 200 lines) now).2.substation_metrics ∧
      get_least_loaded_substation
          (poll_substation_metrics lb url
            (.response 200 lines) now).2.substation_metrics = some p.1 ∧
      p.2.load_percentage ≤ 0) := by
  have hparse : parseMetrics lines = (0, 1) :=
    foldl_parseStep_other lines h (0, 1)
  have hlp : computeLoadPercentage 0 1 = 0 := by
    norm_num [computeLoadPercentage]
  have hcache : (poll_substation_metrics lb url
      (.response 200 lines) now).2.substation_metrics
      = dictInsert url ⟨0, 1, 0, now⟩ lb.substation_metrics := by
    simp [poll_substation_metrics, hparse, hlp]
  refine ⟨hparse, hcache, ?_, ?_⟩
  · rw [hcache]
    exact dictGet_dictInsert _ _ _
  · rw [hcache]
    have hmem : (url, (⟨0, 1, 0, now⟩ : Metrics))
        ∈ dictInsert url ⟨0, 1, 0, now⟩ lb.substation_metrics :=
      mem_of_dictGet (dictGet_dictInsert _ _ _)
    rcases hd : dictInsert url (⟨0, 1, 0, now⟩ : Metrics)
        lb.substation_metrics with _ | ⟨x, xs⟩
    · exact absurd hd (dictInsert_ne_nil _ _ _)
    · refine ⟨pyMinAux x xs, ?_, rfl, ?_⟩
      · exact pyMinAux_mem x xs
      · rw [hd] at hmem
        have := pyMinAux_le x xs _ hmem
        simpa using this

/-- Witness for C9: a body consisting of one unrecognised line. -/
theorem unparseable_telemetry_spec_witness :
    parseMetrics [MetricsLine.other] = (0, 1) ∧
    dictGet "A"
        (poll_substation_metrics LoadBalancer.init "A"
          (.response 200 [MetricsLine.other]) 0).2.substation_metrics
      = some ⟨0, 1, 0, 0⟩ := by
  have h := unparseable_telemetry_spec LoadBalancer.init "A"
    [MetricsLine.other] 0
    (by
      intro l hl
      rw [List.mem_singleton] at hl
      exact hl)
  exact ⟨h.1, h.2.2.1⟩

/-- C2 counterexample: the invariant fails on the code as stated.  Left:
two accepted starts that collide on the generated session id (same EV id,
times `5` and `11/2` with the same integer second) leave
`current_load = 30` while the one surviving session sums to `20`.  Right:
a start with negative kW (`-10`) is accepted, a later start fills the
substation to exactly `100`, and stopping the negative session lifts the
load to `110 > 100 = max_capacity`. -/
theorem substation_load_invariant_counterexample :
    ((runOps (SubstationState.init 1 100)
        [.start "EV" 10 5, .start "EV" 20 (11/2)]).current_load
      ≠ sessionsLoad (runOps (SubstationState.init 1 100)
        [.start "EV" 10 5, .start "EV" 20 (11/2)])) ∧
    ¬ ((runOps (SubstationState.init 1 100)
        [.start "a" (-10) 0, .start "b" 110 1,
         .stop ⟨1, "a", 0⟩]).current_load
      ≤ (runOps (SubstationState.init 1 100)
        [.start "a" (-10) 0, .start "b" 110 1,
         .stop ⟨1, "a", 0⟩]).max_capacity) := by
  constructor
  · norm_num [runOps, applyOp, start_charging, stop_charging, sessionsLoad,
      dictGet, dictInsert, dictRemove, SubstationState.init]
  · norm_num [runOps, applyOp, start_charging, stop_charging, sessionsLoad,
      dictGet, dictInsert, dictRemove, SubstationState.init]

/-- C2 (amended): starting from a fresh substation with nonnegative
capacity, after every sequence of start/stop operations in which each
start requests nonnegative kW and no accepted start collides with an
already stored session id, the load never exceeds the capacity and equals
the sum of the stored sessions' requested kW. -/
theorem substation_load_invariant (id : ℤ) (cap : ℚ) (ops : List SubOp)
    (hcap : 0 ≤ cap)
    (hok : opsOk (SubstationState.init id cap) ops = true) :
    (runOps (SubstationState.init id cap) ops).current_load
        ≤ (runOps (SubstationState.init id cap) ops).max_capacity ∧
    (runOps (SubstationState.init id cap) ops).current_load
        = sessionsLoad (runOps (SubstationState.init id cap) ops) := by
  have hg : GoodState (SubstationState.init id cap) := by
    refine ⟨?_, ?_, ?_⟩
    · simpa [SubstationState.init] using hcap
    · simp [SubstationState.init, sessionsLoad]
    · intro p hp
      simp [SubstationState.init] at hp
  have hrun := goodState_runOps ops (SubstationState.init id cap) hg hok
  exact ⟨hrun.1, hrun.2.1⟩

/-- Witness for C2 at a concrete benign start/stop trace. -/
theorem substation_load_invariant_witness :
    (0:ℚ) ≤ 100 ∧
    opsOk (SubstationState.init 1 100)
      [.start "EV" 10 0, .stop ⟨1, "EV", 0⟩] = true ∧
    ((runOps (SubstationState.init 1 100)
        [.start "EV" 10 0, .stop ⟨1, "EV", 0⟩]).current_load
      ≤ (runOps (SubstationState.init 1 100)
        [.start "EV" 10 0, .stop ⟨1, "EV", 0⟩]).max_capacity ∧
     (runOps (SubstationState.init 1 100)
        [.start "EV" 10 0, .stop ⟨1, "EV", 0⟩]).current_load
      = sessionsLoad (runOps (SubstationState.init 1 100)
        [.start "EV" 10 0, .stop ⟨1, "EV", 0⟩])) := by
  refine ⟨by norm_num, ?_, ?_⟩
  · norm_num [opsOk, opOk, applyOp, start_charging, stop_charging,
      dictGet, dictInsert, dictRemove, SubstationState.init]
  · exact substation_load_invariant 1 100 _ (by norm_num)
      (by norm_num [opsOk, opOk, applyOp, start_charging, stop_charging,
        dictGet, dictInsert, dictRemove, SubstationState.init])

/-- C10: two accepted starts with the same EV id at times `5` and `11/2`
(the same integer second) generate the same session id; both are
accepted, both increment `current_load` and `active_chargers`, and the
second overwrites the first's record, so one stored session remains for
two allocations. -/
theorem session_id_collision :
    (start_charging (SubstationState.init 1 100) "EV" 10 5).1
        = some ⟨1, "EV", 5⟩ ∧
    (start_charging
        (start_charging (SubstationState.init 1 100) "EV" 10 5).2
        "EV" 20 (11/2)).1 = some ⟨1, "EV", 5⟩ ∧
    (runOps (SubstationState.init 1 100)
        [.start "EV" 10 5, .start "EV" 20 (11/2)]).charging_sessions
      = [(⟨1, "EV", 5⟩, ⟨"EV", 20, 11/2⟩)] ∧
    (runOps (SubstationState.init 1 100)
        [.start "EV" 10 5, .start "EV" 20 (11/2)]).current_load = 30 ∧
    (runOps (SubstationState.init 1 100)
        [.start "EV" 10 5, .start "EV" 20 (11/2)]).active_chargers = 2 := by
  refine ⟨?_, ?_, ?_, ?_, ?_⟩ <;>
    norm_num [runOps, applyOp, start_charging, dictInsert,
      SubstationState.init]

end SmartGrid
